import Mathlib

/-!
Verification of the tidface watchface's timezone-selection core.

This file shallowly embeds the runtime selector of the watchface:

* `src/c/clock_closest_noon.c` contains two generations of the selector.
  The first (single-pass) generation keeps a running minimal excess
  (`update_selected_timezone_and_city`, lines 38-85); the second
  (two-pass) generation first collects all qualifying candidates and the
  minimum qualifying local time, then filters
  (`update_selected_timezone_and_city`, lines 194-309).
* `src/c/clock_closest_airport_noon.h` contains the airport variant
  (`_airport_is_dst`, `_airport_pick_new`, `clock_closest_airport_noon_update`).
* `src/c/clock_tid.c` contains the monotonic TID timestamp logic
  (`clock_tid_get_string`).
* `scripts/tzCommon.ts` contains the table-construction DST-transition
  finder (`findDstTransitions`); its luxon-driven year walk is abstracted
  as an input, its final normalization step is embedded exactly.
* `scripts/generateAirportTzList.ts` packs 3-letter IATA codes into
  15-bit values (`generateCCode`); the runtime unpacks them in
  `_airport_pick_new`.

Modelling conventions:
* C machine integers are modelled as `Int`/`Nat`; where overflow matters
  (the uint64 microsecond computation of `clock_tid_get_string`) we reduce
  explicitly modulo `2 ^ 64`.
* The UTC offsets of the first two selectors are stored in the table as
  `float` hours.  Every offset in the generated tables is a multiple of a
  quarter hour, hence exactly representable in binary32, and
  `(long)(off_h * 3600.0f)` is the exact integer number of seconds; we
  therefore model the offset directly as that integer (`stdOffsetSec`,
  `dstOffsetSec`).  The airport table stores quarter-hour units
  (`std_quarters`), for which `(long)((q * 0.25f) * 3600.0f) = q * 900`
  exactly; we keep the quarters and multiply by 900 where the C does.
* libc's `rand` is an arbitrary deterministic stream: after `srand s`,
  the k-th `rand()` call returns `rng s k` for a stream `rng` over which
  all theorems quantify.  The global PRNG state is an (unsigned seed,
  calls-consumed) pair.
* C's `%` on `long` is truncated division (`Int.tmod`); the sources follow
  it by an `if (x < 0) x += DAY_SECONDS;` fix-up, and we prove once that
  the composite equals mathematical `emod`.
* `rand() % 0` (reached when a winning variant has `name_count == 0`) is
  undefined behavior in C; the embedding returns a dedicated `ub` outcome
  in that case instead of a value.
-/

/-! ### PRNG model (libc `srand`/`rand`) -/

/-- Global PRNG state: the seed installed by the last `srand`, and how many
`rand()` calls have been consumed since. -/
abbrev RngState := Nat × Nat

/-- `srand(current_utc_t)`: the `time_t` argument is converted to C
`unsigned int` (reduction mod `2 ^ 32`); the call count restarts at 0. -/
def srandC (t : Int) : RngState := ((t % 4294967296).toNat, 0)

/-- One `rand()` call: returns the next value of the stream `rng` for the
installed seed and advances the call count. -/
def randC (rng : Nat → Nat → Nat) (rs : RngState) : Nat × RngState :=
  (rng rs.1 rs.2, (rs.1, rs.2 + 1))

/-- The shared C idiom `(count == 1) ? 0 : (rand() % count)`: consumes a
`rand()` only in the second arm. -/
def pickRand (rng : Nat → Nat → Nat) (len : Nat) (rs : RngState) : Nat × RngState :=
  if len = 1 then (0, rs)
  else
    let v := randC rng rs
    (v.1 % len, v.2)

/-! ### Timezone variant table (`TzInfo` of `tz_list.c`) -/

/-- One timezone variant of the generated `tz_list.c`: standard and DST
offsets (exact seconds, see the header comment), the DST window's UTC
start/end instants (`0` = sentinel), and the variant's place-name list
(`name_offset`/`name_count` into the flat pool, flattened here into the
owned sublist of names). -/
structure TzInfo where
  stdOffsetSec : Int
  dstOffsetSec : Int
  dstStartUtc : Int
  dstEndUtc : Int
  names : List String
deriving DecidableEq

instance : Inhabited TzInfo := ⟨⟨0, 0, 0, 0, []⟩⟩

/-- DST determination of `update_selected_timezone_and_city`
(clock_closest_noon.c lines 49-56 and, identically, lines 216-235):
only a variant with BOTH `dst_start_utc` and `dst_end_utc` nonzero is
examined; then the non-wrapping interval `[start, end)` or, when
`start > end`, the wrapped interval applies. -/
def isDst1 (tz : TzInfo) (now : Int) : Bool :=
  if tz.dstStartUtc ≠ 0 ∧ tz.dstEndUtc ≠ 0 then
    decide ((tz.dstStartUtc ≤ tz.dstEndUtc ∧ tz.dstStartUtc ≤ now ∧ now < tz.dstEndUtc) ∨
      (tz.dstStartUtc > tz.dstEndUtc ∧ (now ≥ tz.dstStartUtc ∨ now < tz.dstEndUtc)))
  else false

/-- `active_offset_hours` resolved to seconds (lines 57 resp. 237-238). -/
def activeOffset1 (tz : TzInfo) (now : Int) : Int :=
  if isDst1 tz now then tz.dstOffsetSec else tz.stdOffsetSec

/-- `uint32_t utc_secs = current_utc_t % DAY_SECONDS;` — C `%` on the
signed `time_t` is truncated (`tmod`); for the `t ≥ 0` instants our
theorems quantify over, the subsequent `uint32_t` conversion is the
identity. -/
def utcSecs (t : Int) : Int := Int.tmod t 86400

/-- `local_secs %= DAY_SECONDS; if (local_secs < 0) local_secs += DAY_SECONDS;`
(lines 59-60 resp. 243-246 resp. airport 106-107). -/
def normDay (x : Int) : Int :=
  let l := Int.tmod x 86400
  if l < 0 then l + 86400 else l

/-- `local_seconds_today` of a variant (lines 58-60 resp. 241-246). -/
def localSecs1 (tz : TzInfo) (t : Int) : Int :=
  normDay (utcSecs t + activeOffset1 tz t)

/-! ### Support lemmas about the C-style day normalization -/

theorem tmod_day_lt (x : Int) : Int.tmod x 86400 < 86400 :=
  Int.tmod_lt_of_pos x (by omega)

theorem tmod_day_gt (x : Int) : -86400 < Int.tmod x 86400 := by
  cases x with
  | ofNat m =>
      have h : (0 : Int) ≤ Int.tmod (Int.ofNat m) 86400 :=
        Int.tmod_nonneg _ (by rw [Int.ofNat_eq_natCast]; exact_mod_cast Nat.zero_le m)
      omega
  | negSucc m =>
      have h : Int.tmod (Int.negSucc m) 86400 = -(Int.ofNat (Nat.succ m % 86400)) := rfl
      have h2 : Nat.succ m % 86400 < 86400 := Nat.mod_lt _ (by omega)
      rw [h, Int.ofNat_eq_natCast]
      omega

/-- The C normalize-into-day composite computes the mathematical residue. -/
theorem normDay_eq_emod (x : Int) : normDay x = x % 86400 := by
  have h1 := Int.tmod_add_tdiv x 86400
  have h2 : x % 86400 = Int.tmod x 86400 % 86400 := by
    conv_lhs => rw [← h1]
    exact Int.add_mul_emod_self_left _ _ _
  have h3 := tmod_day_lt x
  have h4 := tmod_day_gt x
  simp only [normDay]
  rw [h2]
  split <;> omega

theorem normDay_nonneg (x : Int) : 0 ≤ normDay x := by
  rw [normDay_eq_emod]; exact Int.emod_nonneg x (by omega)

theorem normDay_lt (x : Int) : normDay x < 86400 := by
  rw [normDay_eq_emod]; exact Int.emod_lt_of_pos x (by omega)

/-! ### Single-pass minimal-excess scan
(clock_closest_noon.c lines 41-69 and clock_closest_airport_noon.h lines 93-117) -/

/-- Accumulator of the scan loop: `best_delta` and the `best_candidates`
index array (in push order, `best_count` is its length). -/
structure ScanAcc where
  bestDelta : Int
  cands : List Nat
deriving DecidableEq

/-- Loop body for one qualifying variant `i` with excess `delta` (lines
63-69 resp. airport 110-116): a strictly smaller excess resets the
candidate array to `[i]`; an equal excess appends `i` (the
`best_count < TZ_LIST_COUNT` guard is kept as in the source). -/
def scanStep (n : Nat) (acc : ScanAcc) (i : Nat) (delta : Int) : ScanAcc :=
  if delta < acc.bestDelta then ⟨delta, [i]⟩
  else if delta = acc.bestDelta ∧ acc.cands.length < n then ⟨acc.bestDelta, acc.cands ++ [i]⟩
  else acc

/-- The whole scan loop over precomputed per-index entries: `none` for a
variant that has not reached the target (the `continue` of line 61 resp.
108), `some delta` for a qualifying one. -/
def scanList (n : Nat) (acc : ScanAcc) (es : List (Nat × Option Int)) : ScanAcc :=
  es.foldl
    (fun a p =>
      match p.2 with
      | none => a
      | some d => scanStep n a p.1 d)
    acc

/-- Per-index entry of the loop of `update_selected_timezone_and_city`
(single-pass version, lines 46-62): DST determination, offset, local
seconds-of-day, and the `local_secs < NOON_SECONDS` filter with
`delta = local_secs - NOON_SECONDS`. -/
def entries1 (table : List TzInfo) (t : Int) : List (Nat × Option Int) :=
  (List.range table.length).map fun i =>
    let tz := table.getD i default
    let l := localSecs1 tz t
    (i, if l < 43200 then none else some (l - 43200))

/-- `long best_delta = LONG_MAX;` — 32-bit `long` on the Pebble ARM
target. -/
def scan1 (table : List TzInfo) (t : Int) : ScanAcc :=
  scanList table.length ⟨2147483647, []⟩ (entries1 table t)

/-- Outcome of the single-pass `update_selected_timezone_and_city`:
either the no-qualifier fallback (`s_selected_city_name = "Wait..."`,
`s_selected_offset_hours = 0`, lines 71-73), or a selected variant
(index in `tz_list`, city name, stored active offset in seconds, lines
74-83), or undefined behavior `ub` when the winner's `name_count` is 0
and `rand() % 0` is evaluated (line 81). -/
inductive Sel1Out where
  | noneFound
  | selected (idx : Nat) (name : String) (offsetSec : Int)
  | ub
deriving DecidableEq

/-- `s_selected_city_name` after the single-pass evaluation (the `ub`
arm has no defined C value; `""` is an arbitrary marker). -/
def Sel1Out.cityName : Sel1Out → String
  | .noneFound => "Wait..."
  | .selected _ n _ => n
  | .ub => ""

/-- `s_selected_offset_hours` (in seconds) after the single-pass
evaluation. -/
def Sel1Out.offsetSec : Sel1Out → Int
  | .noneFound => 0
  | .selected _ _ o => o
  | .ub => 0

/-- The single-pass `update_selected_timezone_and_city`
(clock_closest_noon.c lines 38-85).  `_rsIn` is the global PRNG state on
entry; line 40 (`srand(current_utc_t)`) overwrites it before any use.
Note line 78 re-derives DST for the winner as
`current_utc_t >= dst_start && current_utc_t < dst_end` — without the
zero-sentinel and wrap-around cases of the scan loop. -/
def update_selected_timezone_and_city (rng : Nat → Nat → Nat) (table : List TzInfo)
    (t : Int) (_rsIn : RngState) : Sel1Out :=
  let rs := srandC t
  let st := scan1 table t
  if st.cands.length = 0 then .noneFound
  else
    let pr := pickRand rng st.cands.length rs
    let idx := st.cands.getD pr.1 0
    let tz := table.getD idx default
    let off := if tz.dstStartUtc ≤ t ∧ t < tz.dstEndUtc then tz.dstOffsetSec else tz.stdOffsetSec
    if tz.names.length = 0 then .ub
    else .selected idx (tz.names.getD (pickRand rng tz.names.length pr.2).1 "") off

/-! ### Invariants of the single-pass scan -/

theorem scanStep_best_le (n : Nat) (acc : ScanAcc) (i : Nat) (d : Int) :
    (scanStep n acc i d).bestDelta ≤ acc.bestDelta ∧ (scanStep n acc i d).bestDelta ≤ d := by
  unfold scanStep
  by_cases h1 : d < acc.bestDelta
  · rw [if_pos h1]
    exact ⟨Int.le_of_lt h1, Int.le_refl d⟩
  · rw [if_neg h1]
    by_cases h2 : d = acc.bestDelta ∧ acc.cands.length < n
    · rw [if_pos h2]
      refine ⟨Int.le_refl _, ?_⟩
      show acc.bestDelta ≤ d
      omega
    · rw [if_neg h2]
      exact ⟨Int.le_refl _, by omega⟩

theorem scanList_best_le (n : Nat) (es : List (Nat × Option Int)) (acc : ScanAcc) :
    (scanList n acc es).bestDelta ≤ acc.bestDelta := by
  induction es generalizing acc with
  | nil => simp [scanList]
  | cons p tl ih =>
      obtain ⟨i, o⟩ := p
      cases o with
      | none => exact ih acc
      | some d =>
          have h1 := ih (scanStep n acc i d)
          have h2 := (scanStep_best_le n acc i d).1
          calc (scanList n acc ((i, some d) :: tl)).bestDelta
              = (scanList n (scanStep n acc i d) tl).bestDelta := rfl
            _ ≤ (scanStep n acc i d).bestDelta := h1
            _ ≤ acc.bestDelta := h2

theorem scanList_best_le_entry (n : Nat) (es : List (Nat × Option Int)) (acc : ScanAcc)
    (j : Nat) (d : Int) (h : (j, some d) ∈ es) :
    (scanList n acc es).bestDelta ≤ d := by
  induction es generalizing acc with
  | nil => cases h
  | cons p tl ih =>
      rcases List.mem_cons.mp h with h1 | h1
      · subst h1
        have h2 := scanList_best_le n tl (scanStep n acc j d)
        have h3 := (scanStep_best_le n acc j d).2
        calc (scanList n acc ((j, some d) :: tl)).bestDelta
            = (scanList n (scanStep n acc j d) tl).bestDelta := rfl
          _ ≤ (scanStep n acc j d).bestDelta := h2
          _ ≤ d := h3
      · obtain ⟨i, o⟩ := p
        cases o with
        | none => exact ih acc h1
        | some d2 => exact ih (scanStep n acc i d2) h1

theorem scanStep_cands_mem (n : Nat) (acc : ScanAcc) (i : Nat) (d : Int) (j : Nat)
    (h : j ∈ (scanStep n acc i d).cands) :
    (j = i ∧ (scanStep n acc i d).bestDelta = d) ∨
      (j ∈ acc.cands ∧ (scanStep n acc i d).bestDelta = acc.bestDelta) := by
  by_cases h1 : d < acc.bestDelta
  · left
    simp only [scanStep, if_pos h1, List.mem_singleton] at h ⊢
    exact ⟨h, by trivial⟩
  · by_cases h2 : d = acc.bestDelta ∧ acc.cands.length < n
    · simp only [scanStep, if_neg h1, if_pos h2, List.mem_append, List.mem_singleton] at h ⊢
      rcases h with h3 | h3
      · right; exact ⟨h3, by trivial⟩
      · left; exact ⟨h3, h2.1.symm⟩
    · simp only [scanStep, if_neg h1, if_neg h2] at h ⊢
      right; exact ⟨h, by trivial⟩

theorem scanList_cands_mem (n : Nat) (es : List (Nat × Option Int)) (acc : ScanAcc)
    (j : Nat) (h : j ∈ (scanList n acc es).cands) :
    (∃ d, (j, some d) ∈ es ∧ (scanList n acc es).bestDelta = d) ∨
      (j ∈ acc.cands ∧ (scanList n acc es).bestDelta = acc.bestDelta) := by
  induction es generalizing acc with
  | nil => right; exact ⟨h, rfl⟩
  | cons p tl ih =>
      obtain ⟨i, o⟩ := p
      cases o with
      | none =>
          rcases ih acc h with ⟨d, hd, hb⟩ | hr
          · left; exact ⟨d, List.mem_cons_of_mem _ hd, hb⟩
          · right; exact hr
      | some d =>
          have hlist : scanList n acc ((i, some d) :: tl) = scanList n (scanStep n acc i d) tl := rfl
          rw [hlist] at h ⊢
          rcases ih (scanStep n acc i d) h with ⟨d2, hd2, hb2⟩ | ⟨hm, hb⟩
          · left; exact ⟨d2, List.mem_cons_of_mem _ hd2, hb2⟩
          · rcases scanStep_cands_mem n acc i d j hm with ⟨hj, hb2⟩ | ⟨hj, hb2⟩
            · left
              refine ⟨d, ?_, ?_⟩
              · subst hj; exact List.mem_cons_self _ _
              · rw [hb, hb2]
            · right; exact ⟨hj, by rw [hb, hb2]⟩

theorem scanList_all_none (n : Nat) (es : List (Nat × Option Int)) (acc : ScanAcc)
    (h : ∀ p ∈ es, p.2 = none) : scanList n acc es = acc := by
  induction es generalizing acc with
  | nil => rfl
  | cons p tl ih =>
      obtain ⟨i, o⟩ := p
      have ho := h (i, o) (List.mem_cons_self _ _)
      simp only at ho
      subst ho
      exact ih acc (fun q hq => h q (List.mem_cons_of_mem _ hq))

theorem entries1_mem_of (table : List TzInfo) (t : Int) (j : Nat) (o : Option Int)
    (h : (j, o) ∈ entries1 table t) :
    j < table.length ∧
      o = (if localSecs1 (table.getD j default) t < 43200 then none
           else some (localSecs1 (table.getD j default) t - 43200)) := by
  unfold entries1 at h
  rcases List.mem_map.mp h with ⟨i, hi, heq⟩
  have hj : i = j := congrArg Prod.fst heq
  subst hj
  refine ⟨List.mem_range.mp hi, ?_⟩
  exact (congrArg Prod.snd heq).symm

theorem entries1_mem_intro (table : List TzInfo) (t : Int) (j : Nat)
    (hj : j < table.length) (hq : 43200 ≤ localSecs1 (table.getD j default) t) :
    (j, some (localSecs1 (table.getD j default) t - 43200)) ∈ entries1 table t := by
  unfold entries1
  refine List.mem_map.mpr ⟨j, List.mem_range.mpr hj, ?_⟩
  simp only
  rw [if_neg (by omega)]

theorem getD_mem_of_lt {α : Type} (l : List α) (k : Nat) (d : α) (h : k < l.length) :
    l.getD k d ∈ l := by
  rw [List.getD_eq_getElem?_getD, List.getElem?_eq_getElem h, Option.getD_some]
  exact List.getElem_mem h

theorem pickRand_fst_lt (rng : Nat → Nat → Nat) (len : Nat) (rs : RngState) (h : len ≠ 0) :
    (pickRand rng len rs).1 < len := by
  unfold pickRand
  by_cases h1 : len = 1
  · rw [if_pos h1]
    omega
  · rw [if_neg h1]
    exact Nat.mod_lt _ (by omega)

theorem update1_selected_mem (rng : Nat → Nat → Nat) (table : List TzInfo) (t : Int)
    (rsIn : RngState) (idx : Nat) (name : String) (off : Int)
    (h : update_selected_timezone_and_city rng table t rsIn = .selected idx name off) :
    idx ∈ (scan1 table t).cands := by
  simp only [update_selected_timezone_and_city] at h
  split at h
  · exact Sel1Out.noConfusion h
  · split at h
    · exact Sel1Out.noConfusion h
    · rename_i h0 h1
      injection h with e1 e2 e3
      subst e1
      exact getD_mem_of_lt _ _ _ (pickRand_fst_lt rng _ (srandC t) h0)

theorem update1_noneFound_of_no_qualifier (rng : Nat → Nat → Nat) (table : List TzInfo)
    (t : Int) (rsIn : RngState)
    (h : ∀ j, j < table.length → localSecs1 (table.getD j default) t < 43200) :
    update_selected_timezone_and_city rng table t rsIn = .noneFound := by
  have hscan : scan1 table t = ⟨2147483647, []⟩ := by
    unfold scan1
    apply scanList_all_none
    intro p hp
    obtain ⟨j, o⟩ := p
    obtain ⟨hj, ho⟩ := entries1_mem_of table t j o hp
    show o = none
    rw [ho, if_pos (h j hj)]
  simp only [update_selected_timezone_and_city, hscan]
  rfl

/-! ### Two-pass selector
(clock_closest_noon.c lines 194-309, `update_selected_timezone_and_city`
second generation) -/

/-- `ZoneCandidate` (lines 202-206): index in `tz_list`, local seconds
past midnight, and the active offset used for the computation (seconds,
see the header comment on float exactness). -/
structure Cand2 where
  index : Nat
  localSecsToday : Int
  activeOffsetSec : Int
deriving DecidableEq

instance : Inhabited Cand2 := ⟨⟨0, 0, 0⟩⟩

/-- Pass-1 loop body (lines 214-261): compute the variant's local time;
if it has reached noon, append it to `candidates` (guarded by
`candidate_count < TZ_LIST_COUNT` as in the source) and update
`min_valid_local_seconds`. -/
def pass1Step (table : List TzInfo) (t : Int) (acc : List Cand2 × Int) (i : Nat) :
    List Cand2 × Int :=
  let tz := table.getD i default
  let localSecsToday := localSecs1 tz t
  if 43200 ≤ localSecsToday then
    (if acc.1.length < table.length then
        acc.1 ++ [⟨i, localSecsToday, activeOffset1 tz t⟩]
      else acc.1,
     if localSecsToday < acc.2 then localSecsToday else acc.2)
  else acc

def pass1Aux (table : List TzInfo) (t : Int) (acc : List Cand2 × Int) (is : List Nat) :
    List Cand2 × Int :=
  is.foldl (pass1Step table t) acc

/-- Pass 1 over all indices; `min_valid_local_seconds` starts at
`DAY_SECONDS` (line 199). -/
def pass1 (table : List TzInfo) (t : Int) : List Cand2 × Int :=
  pass1Aux table t ([], 86400) (List.range table.length)

/-- Pass-2 loop body (lines 268-275): collect the positions (into the
`candidates` array) whose local time equals the minimum; the push is
guarded by `best_candidate_count < TZ_LIST_COUNT` as in the source. -/
def pass2Step (cands : List Cand2) (minValid : Int) (n : Nat) (best : List Nat) (k : Nat) :
    List Nat :=
  if (cands.getD k default).localSecsToday = minValid ∧ best.length < n then best ++ [k]
  else best

def pass2Aux (cands : List Cand2) (minValid : Int) (n : Nat) (best : List Nat)
    (ks : List Nat) : List Nat :=
  ks.foldl (pass2Step cands minValid n) best

def pass2 (cands : List Cand2) (minValid : Int) (n : Nat) : List Nat :=
  pass2Aux cands minValid n [] (List.range cands.length)

/-- Outcome of the two-pass evaluation: the winning `ZoneCandidate`
(whose `activeOffsetSec` becomes `s_selected_offset_hours`, line 301)
and the selected city name, or the no-qualifier fallback (lines
303-307).  This generation guards `name_count > 0` before taking
`rand() % name_count`, so it has no undefined-behavior outcome. -/
inductive Sel2Out where
  | noneFound
  | selected (c : Cand2) (name : String)
deriving DecidableEq

/-- `s_selected_city_name` after the two-pass evaluation. -/
def Sel2Out.cityName : Sel2Out → String
  | .noneFound => "Wait..."
  | .selected _ n => n

/-- `s_selected_offset_hours` (in seconds) after the two-pass
evaluation. -/
def Sel2Out.offsetSec : Sel2Out → Int
  | .noneFound => 0
  | .selected c _ => c.activeOffsetSec

/-- The two-pass `update_selected_timezone_and_city` (lines 194-309).
`srand(current_utc_t)` (line 196) overwrites the global PRNG state
`_rsIn` before any use. -/
def update_selected_timezone_and_city_twopass (rng : Nat → Nat → Nat) (table : List TzInfo)
    (t : Int) (_rsIn : RngState) : Sel2Out :=
  let rs := srandC t
  let p := pass1 table t
  let best := pass2 p.1 p.2 table.length
  if best.length = 0 then .noneFound
  else
    let pr := pickRand rng best.length rs
    let winning := best.getD pr.1 0
    let c := p.1.getD winning default
    let tz := table.getD c.index default
    let name :=
      if 0 < tz.names.length then
        let npr := pickRand rng tz.names.length pr.2
        if npr.1 < tz.names.length then tz.names.getD npr.1 "" else "ERR:NAME"
      else "ERR:NO_NM"
    .selected c name

/-! ### Invariants of the two-pass scan -/

theorem pass1Aux_min_le (table : List TzInfo) (t : Int) (is : List Nat)
    (acc : List Cand2 × Int) : (pass1Aux table t acc is).2 ≤ acc.2 := by
  induction is generalizing acc with
  | nil => exact Int.le_refl _
  | cons i tl ih =>
      have h1 : pass1Aux table t acc (i :: tl) = pass1Aux table t (pass1Step table t acc i) tl := rfl
      rw [h1]
      refine Int.le_trans (ih _) ?_
      unfold pass1Step
      dsimp only
      split
      · dsimp only
        split <;> omega
      · exact Int.le_refl _

theorem pass1Aux_min_le_qual (table : List TzInfo) (t : Int) (is : List Nat)
    (acc : List Cand2 × Int) (i : Nat) (hi : i ∈ is)
    (hq : 43200 ≤ localSecs1 (table.getD i default) t) :
    (pass1Aux table t acc is).2 ≤ localSecs1 (table.getD i default) t := by
  induction is generalizing acc with
  | nil => cases hi
  | cons j tl ih =>
      rcases List.mem_cons.mp hi with h1 | h1
      · subst h1
        have h2 : pass1Aux table t acc (i :: tl) = pass1Aux table t (pass1Step table t acc i) tl :=
          rfl
        rw [h2]
        refine Int.le_trans (pass1Aux_min_le table t tl _) ?_
        unfold pass1Step
        dsimp only
        rw [if_pos hq]
        dsimp only
        split <;> omega
      · exact ih _ h1

theorem pass1Aux_mem (table : List TzInfo) (t : Int) (is : List Nat)
    (acc : List Cand2 × Int) (c : Cand2) (h : c ∈ (pass1Aux table t acc is).1) :
    c ∈ acc.1 ∨
      ∃ i ∈ is, 43200 ≤ localSecs1 (table.getD i default) t ∧
        c = ⟨i, localSecs1 (table.getD i default) t, activeOffset1 (table.getD i default) t⟩ := by
  induction is generalizing acc with
  | nil => left; exact h
  | cons j tl ih =>
      have h2 : pass1Aux table t acc (j :: tl) = pass1Aux table t (pass1Step table t acc j) tl :=
        rfl
      rw [h2] at h
      rcases ih _ h with h3 | ⟨i, hi, hq, hc⟩
      · unfold pass1Step at h3
        dsimp only at h3
        by_cases hq : 43200 ≤ localSecs1 (table.getD j default) t
        · rw [if_pos hq] at h3
          dsimp only at h3
          by_cases hg : acc.1.length < table.length
          · rw [if_pos hg] at h3
            rcases List.mem_append.mp h3 with h4 | h4
            · left; exact h4
            · right
              refine ⟨j, List.mem_cons_self _ _, hq, ?_⟩
              simpa using h4
          · rw [if_neg hg] at h3
            left; exact h3
        · rw [if_neg hq] at h3
          left; exact h3
      · right; exact ⟨i, List.mem_cons_of_mem _ hi, hq, hc⟩

theorem pass1Aux_all_nonqual (table : List TzInfo) (t : Int) (is : List Nat)
    (acc : List Cand2 × Int)
    (h : ∀ i ∈ is, localSecs1 (table.getD i default) t < 43200) :
    pass1Aux table t acc is = acc := by
  induction is generalizing acc with
  | nil => rfl
  | cons j tl ih =>
      have h2 : pass1Aux table t acc (j :: tl) = pass1Aux table t (pass1Step table t acc j) tl :=
        rfl
      rw [h2]
      have h3 : pass1Step table t acc j = acc := by
        unfold pass1Step
        dsimp only
        rw [if_neg (by have := h j (List.mem_cons_self _ _); omega)]
      rw [h3]
      exact ih _ (fun i hi => h i (List.mem_cons_of_mem _ hi))

theorem pass2Aux_mem (cands : List Cand2) (minValid : Int) (n : Nat) (ks : List Nat)
    (best : List Nat) (j : Nat) (h : j ∈ pass2Aux cands minValid n best ks) :
    j ∈ best ∨ (j ∈ ks ∧ (cands.getD j default).localSecsToday = minValid) := by
  induction ks generalizing best with
  | nil => left; exact h
  | cons k tl ih =>
      have h2 : pass2Aux cands minValid n best (k :: tl) =
          pass2Aux cands minValid n (pass2Step cands minValid n best k) tl := rfl
      rw [h2] at h
      rcases ih _ h with h3 | ⟨h3, h4⟩
      · unfold pass2Step at h3
        split at h3
        · rename_i hc
          rcases List.mem_append.mp h3 with h4 | h4
          · left; exact h4
          · right
            have h5 : j = k := by simpa using h4
            subst h5
            exact ⟨List.mem_cons_self _ _, hc.1⟩
        · left; exact h3
      · right; exact ⟨List.mem_cons_of_mem _ h3, h4⟩

theorem update2_selected_inv (rng : Nat → Nat → Nat) (table : List TzInfo) (t : Int)
    (rsIn : RngState) (c : Cand2) (name : String)
    (h : update_selected_timezone_and_city_twopass rng table t rsIn = .selected c name) :
    c ∈ (pass1 table t).1 ∧ c.localSecsToday = (pass1 table t).2 ∧
      ((table.getD c.index default).names.length = 0 → name = "ERR:NO_NM") ∧
      (0 < (table.getD c.index default).names.length →
        ∃ ni, ni < (table.getD c.index default).names.length ∧
          name = (table.getD c.index default).names.getD ni "") := by
  simp only [update_selected_timezone_and_city_twopass] at h
  split at h
  · exact Sel2Out.noConfusion h
  · rename_i h0
    injection h with e1 e2
    have hbest : (pass2 (pass1 table t).1 (pass1 table t).2 table.length).length ≠ 0 := h0
    have hpr := pickRand_fst_lt rng _ (srandC t) hbest
    have hwin_mem : (pass2 (pass1 table t).1 (pass1 table t).2 table.length).getD
        (pickRand rng (pass2 (pass1 table t).1 (pass1 table t).2 table.length).length
          (srandC t)).1 0 ∈ pass2 (pass1 table t).1 (pass1 table t).2 table.length :=
      getD_mem_of_lt _ _ _ hpr
    rcases pass2Aux_mem (pass1 table t).1 (pass1 table t).2 table.length
        (List.range (pass1 table t).1.length) [] _ hwin_mem with h4 | ⟨h4, h5⟩
    · cases h4
    · have hwlt : (pass2 (pass1 table t).1 (pass1 table t).2 table.length).getD
          (pickRand rng (pass2 (pass1 table t).1 (pass1 table t).2 table.length).length
            (srandC t)).1 0 < (pass1 table t).1.length := List.mem_range.mp h4
      refine ⟨?_, ?_, ?_, ?_⟩
      · rw [← e1]
        exact getD_mem_of_lt _ _ _ hwlt
      · rw [← e1]
        exact h5
      · intro hn0
        rw [← e2, ← e1] at *
        rw [if_neg (by omega)]
      · intro hnpos
        rw [← e1] at hnpos
        rw [← e2, ← e1]
        have hlt := pickRand_fst_lt rng
          ((table.getD ((pass1 table t).1.getD
            ((pass2 (pass1 table t).1 (pass1 table t).2 table.length).getD
              (pickRand rng
                (pass2 (pass1 table t).1 (pass1 table t).2 table.length).length
                (srandC t)).1 0) default).index) default).names.length
          (pickRand rng (pass2 (pass1 table t).1 (pass1 table t).2 table.length).length
            (srandC t)).2 (by omega)
        refine ⟨_, hlt, ?_⟩
        rw [if_pos hnpos, if_pos hlt]

theorem update2_noneFound_of_no_qualifier (rng : Nat → Nat → Nat) (table : List TzInfo)
    (t : Int) (rsIn : RngState)
    (h : ∀ j, j < table.length → localSecs1 (table.getD j default) t < 43200) :
    update_selected_timezone_and_city_twopass rng table t rsIn = .noneFound := by
  have hp1 : pass1 table t = ([], 86400) := by
    unfold pass1
    exact pass1Aux_all_nonqual table t _ _ (fun i hi => h i (List.mem_range.mp hi))
  simp only [update_selected_timezone_and_city_twopass, hp1]
  rfl

/-! ### Airport selector (`clock_closest_airport_noon.h`) -/

/-- `TzInfo` of the generated `airport_tz_list.c`: offsets in quarter-hour
units (`std_quarters`, `dst_quarters`), DST window instants, and the
`name_offset`/`name_count` range into the shared pools. -/
structure AirTzInfo where
  stdQuarters : Int
  dstQuarters : Int
  dstStartUtc : Int
  dstEndUtc : Int
  nameOffset : Nat
  nameCount : Nat
deriving DecidableEq

instance : Inhabited AirTzInfo := ⟨⟨0, 0, 0, 0, 0, 0⟩⟩

/-- The airport table: the variant list plus the bit-packed IATA code pool
(`airport_code_pool_bits`, `uint16_t` entries). -/
structure AirTable where
  tzs : List AirTzInfo
  codePoolBits : List Nat
deriving DecidableEq

/-- The DST rule exactly as the spec states it (§4.1 step 2a): never
active when `dst_start == dst_end == 0`; for `dst_start <= dst_end`
active on `[dst_start, dst_end)`; for `dst_start > dst_end` active on
the wrapped window.  Written from the spec's words, for comparison with
the code's determinations. -/
def specDstActive (dstStart dstEnd now : Int) : Bool :=
  if dstStart = 0 ∧ dstEnd = 0 then false
  else if dstStart ≤ dstEnd then decide (dstStart ≤ now ∧ now < dstEnd)
  else decide (now ≥ dstStart ∨ now < dstEnd)

/-- `_airport_is_dst` (clock_closest_airport_noon.h lines 81-88). -/
def airportIsDst (tz : AirTzInfo) (now : Int) : Bool :=
  if tz.dstStartUtc = 0 ∧ tz.dstEndUtc = 0 then false
  else if tz.dstStartUtc ≤ tz.dstEndUtc then decide (now ≥ tz.dstStartUtc ∧ now < tz.dstEndUtc)
  else decide (now ≥ tz.dstStartUtc ∨ now < tz.dstEndUtc)

/-- `offset_h = (is_dst ? dst_quarters : std_quarters) * 0.25f` followed by
`(long)(offset_h * 3600.0f)` — exactly `quarters * 900` (lines 102-105). -/
def airportOffsetSec (tz : AirTzInfo) (now : Int) : Int :=
  (if airportIsDst tz now then tz.dstQuarters else tz.stdQuarters) * 900

/-- Airport variant's local seconds-of-day (lines 105-107). -/
def localSecsA (tz : AirTzInfo) (t : Int) : Int :=
  normDay (utcSecs t + airportOffsetSec tz t)

/-- Per-index entry of the `_airport_pick_new` scan loop (lines 100-117),
with its `local_secs < target_seconds_of_day` filter. -/
def airEntries (tbl : AirTable) (t target : Int) : List (Nat × Option Int) :=
  (List.range tbl.tzs.length).map fun i =>
    let tz := tbl.tzs.getD i default
    let l := localSecsA tz t
    (i, if l < target then none else some (l - target))

/-- The scan of `_airport_pick_new` (`long best_delta = LONG_MAX`, 32-bit
`long`). -/
def airScan (tbl : AirTable) (t target : Int) : ScanAcc :=
  scanList tbl.tzs.length ⟨2147483647, []⟩ (airEntries tbl t target)

/-- Unpack character 0 of a bit-packed IATA code:
`'A' + ((bits >> 10) & 0x1F)` (line 135). -/
def unpackIata0 (bits : Nat) : Nat := 65 + ((bits >>> 10) &&& 31)

/-- Unpack character 1: `'A' + ((bits >> 5) & 0x1F)` (line 136). -/
def unpackIata1 (bits : Nat) : Nat := 65 + ((bits >>> 5) &&& 31)

/-- Unpack character 2: `'A' + (bits & 0x1F)` (line 137). -/
def unpackIata2 (bits : Nat) : Nat := 65 + (bits &&& 31)

/-- The generator's packing of a 3-letter code (generateAirportTzList.ts
lines 1174-1178): `b = charCode - 65`, `bits = (b0 << 10) | (b1 << 5) | b2`. -/
def packIataCode (c0 c1 c2 : Nat) : Nat :=
  ((c0 - 65) <<< 10) ||| ((c1 - 65) <<< 5) ||| (c2 - 65)

/-- Outcome of `_airport_pick_new`: no qualifying bucket (code/name reset
to `"---"`, offset 0, lines 120-124), or a selected bucket (index,
unpacked IATA code string, stored offset, lines 125-140), or undefined
behavior when the winner's `name_count` is 0 (`rand() % 0`, line 132). -/
inductive AirOut where
  | noneFound
  | selected (idx : Nat) (code : String) (offsetSec : Int)
  | ub
deriving DecidableEq

/-- `s_selected_code` after `_airport_pick_new` (the `ub` arm has no
defined C value). -/
def AirOut.codeStr : AirOut → String
  | .noneFound => "---"
  | .selected _ c _ => c
  | .ub => ""

/-- `s_selected_offset_hours` (in seconds) after `_airport_pick_new`. -/
def AirOut.offsetSec : AirOut → Int
  | .noneFound => 0
  | .selected _ _ o => o
  | .ub => 0

/-- `_airport_pick_new` (clock_closest_airport_noon.h lines 90-142).
`srand((unsigned int)current_utc_t)` (line 91) overwrites the global PRNG
state `_rsIn`.  The winner's offset is re-derived with the same
`_airport_is_dst` used in the scan (lines 128-130). -/
def airport_pick_new (rng : Nat → Nat → Nat) (tbl : AirTable) (t target : Int)
    (_rsIn : RngState) : AirOut :=
  let rs := srandC t
  let st := airScan tbl t target
  if st.cands.length = 0 then .noneFound
  else
    let pr := pickRand rng st.cands.length rs
    let idx := st.cands.getD pr.1 0
    let tz := tbl.tzs.getD idx default
    let off := airportOffsetSec tz t
    if tz.nameCount = 0 then .ub
    else
      let npr := pickRand rng tz.nameCount pr.2
      let bits := tbl.codePoolBits.getD (tz.nameOffset + npr.1) 0
      .selected idx
        (String.mk [Char.ofNat (unpackIata0 bits), Char.ofNat (unpackIata1 bits),
          Char.ofNat (unpackIata2 bits)]) off

theorem airEntries_mem_of (tbl : AirTable) (t target : Int) (j : Nat) (o : Option Int)
    (h : (j, o) ∈ airEntries tbl t target) :
    j < tbl.tzs.length ∧
      o = (if localSecsA (tbl.tzs.getD j default) t < target then none
           else some (localSecsA (tbl.tzs.getD j default) t - target)) := by
  unfold airEntries at h
  rcases List.mem_map.mp h with ⟨i, hi, heq⟩
  have hj : i = j := congrArg Prod.fst heq
  subst hj
  refine ⟨List.mem_range.mp hi, ?_⟩
  exact (congrArg Prod.snd heq).symm

theorem airEntries_mem_intro (tbl : AirTable) (t target : Int) (j : Nat)
    (hj : j < tbl.tzs.length) (hq : target ≤ localSecsA (tbl.tzs.getD j default) t) :
    (j, some (localSecsA (tbl.tzs.getD j default) t - target)) ∈ airEntries tbl t target := by
  unfold airEntries
  refine List.mem_map.mpr ⟨j, List.mem_range.mpr hj, ?_⟩
  simp only
  rw [if_neg (by omega)]

theorem airport_selected_mem (rng : Nat → Nat → Nat) (tbl : AirTable) (t target : Int)
    (rsIn : RngState) (idx : Nat) (code : String) (off : Int)
    (h : airport_pick_new rng tbl t target rsIn = .selected idx code off) :
    idx ∈ (airScan tbl t target).cands := by
  simp only [airport_pick_new] at h
  split at h
  · exact AirOut.noConfusion h
  · split at h
    · exact AirOut.noConfusion h
    · rename_i h0 h1
      injection h with e1 e2 e3
      subst e1
      exact getD_mem_of_lt _ _ _ (pickRand_fst_lt rng _ (srandC t) h0)

theorem airport_noneFound_of_no_qualifier (rng : Nat → Nat → Nat) (tbl : AirTable)
    (t target : Int) (rsIn : RngState)
    (h : ∀ j, j < tbl.tzs.length → localSecsA (tbl.tzs.getD j default) t < target) :
    airport_pick_new rng tbl t target rsIn = .noneFound := by
  have hscan : airScan tbl t target = ⟨2147483647, []⟩ := by
    unfold airScan
    apply scanList_all_none
    intro p hp
    obtain ⟨j, o⟩ := p
    obtain ⟨hj, ho⟩ := airEntries_mem_of tbl t target j o hp
    show o = none
    rw [ho, if_pos (h j hj)]
  simp only [airport_pick_new, hscan]
  rfl

/-! ### Per-second update gating
(clock_closest_noon.c lines 114-137 and 332-358, clock_closest_airport_noon.h
lines 169-193 — the three update functions share this logic verbatim) -/

/-- `gmtime`'s `tm_min` for the nonnegative instants our theorems range
over. -/
def tmMin (t : Int) : Int := (t / 60) % 60

/-- `gmtime`'s `tm_sec` for nonnegative instants. -/
def tmSec (t : Int) : Int := t % 60

/-- The re-evaluation alignment check of line 126 resp. 346 resp. 182:
`(tm_min % 15 == 0) && (tm_min != 45) && (tm_sec == 0)`. -/
def isReEvalInstant (t : Int) : Bool :=
  decide (tmMin t % 15 = 0 ∧ tmMin t ≠ 45 ∧ tmSec t = 0)

/-- The gating state machine of `clock_closest_noon_update` (and of the
airport update): given `s_last_update_time`, `s_last_re_evaluation_time`
and the current instant, returns whether `update_selected_timezone_and_city`
runs (which would set `s_last_re_evaluation_time = t`) and the two updated
time fields.  The early `current_utc_t == s_last_update_time` return (line
118 resp. 336 resp. 176) suppresses same-second re-entry. -/
def clock_update_gate (lastUpdate lastReEval t : Int) : Bool × Int × Int :=
  if t = lastUpdate then (false, lastUpdate, lastReEval)
  else
    let needs :=
      if isReEvalInstant t then decide (t ≠ lastReEval)
      else decide (lastReEval = -1)
    if needs then (true, t, t) else (false, t, lastReEval)

/-! ### TID monotonic timestamp (`clock_tid.c`) -/

/-- `(uint64_t)seconds * 1000000 + (uint64_t)milliseconds * 1000`
(clock_tid.c line 59): `time_t` is converted to `uint64_t` (two's
complement, i.e. reduction mod `2 ^ 64`) and the arithmetic wraps mod
`2 ^ 64`. -/
def tidMicros (seconds : Int) (ms : Nat) : Nat :=
  ((seconds % 18446744073709551616).toNat * 1000000 + ms * 1000) % 18446744073709551616

/-- The monotonicity core of `clock_tid_get_string` (lines 59-64): the
microsecond value actually used for encoding, given the previous
`last_timestamp`.  `last_timestamp + 1` is uint64 arithmetic. -/
def clock_tid_next (last : Nat) (seconds : Int) (ms : Nat) : Nat :=
  let cur := tidMicros seconds ms
  if cur ≤ last then (last + 1) % 18446744073709551616 else cur

/-- `last_timestamp` after a sequence of `clock_tid_get_string` calls
starting from the given state (the static initializer is 0). -/
def clock_tid_run (last : Nat) (calls : List (Int × Nat)) : Nat :=
  calls.foldl (fun l p => clock_tid_next l p.1 p.2) last

/-! ### Table construction: `findDstTransitions` (scripts/tzCommon.ts) -/

/-- The `DstTransitions` tuple
`[stdOffsetSeconds, dstOffsetSeconds, dstStartUtcTimestamp, dstEndUtcTimestamp]`. -/
structure DstTransitions where
  stdOffsetSec : Int
  dstOffsetSec : Int
  dstStartTs : Int
  dstEndTs : Int
deriving DecidableEq

/-- The final normalization of `findDstTransitions` (tzCommon.ts lines
190-195): `if (Math.abs(stdOffsetSec - dstOffsetSec) < 60) { dstOffsetSec
= stdOffsetSec; startTs = 0; endTs = 0; }`.  Offsets are whole seconds
(`offsetMinutes * 60`), so JS number arithmetic is exact integer
arithmetic here. -/
def normalizeNoDst (stdOffsetSec dstOffsetSec startTs endTs : Int) : DstTransitions :=
  if (stdOffsetSec - dstOffsetSec).natAbs < 60 then ⟨stdOffsetSec, stdOffsetSec, 0, 0⟩
  else ⟨stdOffsetSec, dstOffsetSec, startTs, endTs⟩

/-- `findDstTransitions` with the luxon-driven year walk abstracted:
`pre` is the `(stdOffsetSec, dstOffsetSec, startTs, endTs)` quadruple the
walk and its null-fallbacks produced (tzCommon.ts lines 78-188); `none`
covers the early returns for an invalid zone or a failed detail lookup
(lines 63-64 and 86-89), which return `[0, 0, 0, 0]`.  A cache hit (lines
57-59) returns a previous output of this same function.  The final
sub-minute normalization (lines 190-195) is embedded exactly. -/
def findDstTransitions (pre : Option (Int × Int × Int × Int)) : DstTransitions :=
  match pre with
  | none => ⟨0, 0, 0, 0⟩
  | some (stdOff, dstOff, startTs, endTs) => normalizeNoDst stdOff dstOff startTs endTs

/-! ### IATA 15-bit packing round trip -/

set_option maxHeartbeats 2000000 in
theorem iata_fields :
    ∀ b0 < 32, ∀ b1 < 32, ∀ b2 < 32,
      ((((b0 <<< 10) ||| (b1 <<< 5) ||| b2) >>> 10) &&& 31) = b0 ∧
      ((((b0 <<< 10) ||| (b1 <<< 5) ||| b2) >>> 5) &&& 31) = b1 ∧
      (((b0 <<< 10) ||| (b1 <<< 5) ||| b2) &&& 31) = b2 := by decide

/-! ### Witness fixtures -/

/-- Spec §8 scenario table: Variant A = New York (UTC-5, no DST),
Variant B = London (UTC+1 standard / UTC+2 DST, DST window `[100, 200)`). -/
def scenarioTable : List TzInfo :=
  [⟨-18000, -18000, 0, 0, ["NYC"]⟩, ⟨3600, 7200, 100, 200, ["LON"]⟩]

/-- A concrete constant PRNG stream for witness evaluations. -/
def rngZero : Nat → Nat → Nat := fun _ _ => 0

/-! ### Claim theorems -/

/-- C1: for every table, every UTC evaluation instant, and target 43200,
when the selector (either generation of `update_selected_timezone_and_city`,
or `_airport_pick_new`) makes a selection, no variant in the table whose
local seconds-of-day has reached the target has a non-negative excess
strictly smaller than the excess of the selected variant. -/
theorem c1_minimal_excess :
    (∀ (rng : Nat → Nat → Nat) (table : List TzInfo) (t : Int) (rsIn : RngState)
      (idx : Nat) (name : String) (off : Int),
      update_selected_timezone_and_city rng table t rsIn = .selected idx name off →
      idx < table.length ∧ 43200 ≤ localSecs1 (table.getD idx default) t ∧
        ∀ j, j < table.length → 43200 ≤ localSecs1 (table.getD j default) t →
          localSecs1 (table.getD idx default) t - 43200 ≤
            localSecs1 (table.getD j default) t - 43200) ∧
    (∀ (rng : Nat → Nat → Nat) (table : List TzInfo) (t : Int) (rsIn : RngState)
      (c : Cand2) (name : String),
      update_selected_timezone_and_city_twopass rng table t rsIn = .selected c name →
      c.index < table.length ∧ c.localSecsToday = localSecs1 (table.getD c.index default) t ∧
        43200 ≤ c.localSecsToday ∧
        ∀ j, j < table.length → 43200 ≤ localSecs1 (table.getD j default) t →
          c.localSecsToday - 43200 ≤ localSecs1 (table.getD j default) t - 43200) ∧
    (∀ (rng : Nat → Nat → Nat) (tbl : AirTable) (t : Int) (rsIn : RngState)
      (idx : Nat) (code : String) (off : Int),
      airport_pick_new rng tbl t 43200 rsIn = .selected idx code off →
      idx < tbl.tzs.length ∧ 43200 ≤ localSecsA (tbl.tzs.getD idx default) t ∧
        ∀ j, j < tbl.tzs.length → 43200 ≤ localSecsA (tbl.tzs.getD j default) t →
          localSecsA (tbl.tzs.getD idx default) t - 43200 ≤
            localSecsA (tbl.tzs.getD j default) t - 43200) := by
  refine ⟨?_, ?_, ?_⟩
  · intro rng table t rsIn idx name off h
    have hmem : idx ∈ (scanList table.length ⟨2147483647, []⟩ (entries1 table t)).cands :=
      update1_selected_mem rng table t rsIn idx name off h
    rcases scanList_cands_mem table.length (entries1 table t) ⟨2147483647, []⟩ idx hmem with
      ⟨d, hd, hb⟩ | ⟨hm, _⟩
    · obtain ⟨hlt, ho⟩ := entries1_mem_of table t idx (some d) hd
      by_cases hq : localSecs1 (table.getD idx default) t < 43200
      · rw [if_pos hq] at ho
        exact Option.noConfusion ho
      · rw [if_neg hq] at ho
        have hd2 : d = localSecs1 (table.getD idx default) t - 43200 := Option.some_inj.mp ho
        refine ⟨hlt, by omega, ?_⟩
        intro j hj hqj
        have hle := scanList_best_le_entry table.length (entries1 table t) ⟨2147483647, []⟩ j
          (localSecs1 (table.getD j default) t - 43200) (entries1_mem_intro table t j hj hqj)
        have hb2 : (scanList table.length ⟨2147483647, []⟩ (entries1 table t)).bestDelta = d := hb
        omega
    · cases hm
  · intro rng table t rsIn c name h
    obtain ⟨hmem, hminv, -, -⟩ := update2_selected_inv rng table t rsIn c name h
    have hmem2 : c ∈ (pass1Aux table t ([], 86400) (List.range table.length)).1 := hmem
    rcases pass1Aux_mem table t (List.range table.length) ([], 86400) c hmem2 with hc | ⟨i, hi, hq, hc⟩
    · cases hc
    · have hilt : i < table.length := List.mem_range.mp hi
      have hidx : c.index = i := by rw [hc]
      have hloc : c.localSecsToday = localSecs1 (table.getD i default) t := by rw [hc]
      refine ⟨by omega, by rw [hidx, hloc], by omega, ?_⟩
      intro j hj hqj
      have hle := pass1Aux_min_le_qual table t (List.range table.length) ([], 86400) j
        (List.mem_range.mpr hj) hqj
      have hminv2 : c.localSecsToday = (pass1Aux table t ([], 86400) (List.range table.length)).2 :=
        hminv
      omega
  · intro rng tbl t rsIn idx code off h
    have hmem : idx ∈ (scanList tbl.tzs.length ⟨2147483647, []⟩ (airEntries tbl t 43200)).cands :=
      airport_selected_mem rng tbl t 43200 rsIn idx code off h
    rcases scanList_cands_mem tbl.tzs.length (airEntries tbl t 43200) ⟨2147483647, []⟩ idx hmem with
      ⟨d, hd, hb⟩ | ⟨hm, _⟩
    · obtain ⟨hlt, ho⟩ := airEntries_mem_of tbl t 43200 idx (some d) hd
      by_cases hq : localSecsA (tbl.tzs.getD idx default) t < 43200
      · rw [if_pos hq] at ho
        exact Option.noConfusion ho
      · rw [if_neg hq] at ho
        have hd2 : d = localSecsA (tbl.tzs.getD idx default) t - 43200 := Option.some_inj.mp ho
        refine ⟨hlt, by omega, ?_⟩
        intro j hj hqj
        have hle := scanList_best_le_entry tbl.tzs.length (airEntries tbl t 43200)
          ⟨2147483647, []⟩ j (localSecsA (tbl.tzs.getD j default) t - 43200)
          (airEntries_mem_intro tbl t 43200 j hj hqj)
        have hb2 : (scanList tbl.tzs.length ⟨2147483647, []⟩ (airEntries tbl t 43200)).bestDelta
            = d := hb
        omega
    · cases hm

/-- Witness for C1: at UTC 11:00:00 (t = 39600) on the spec's scenario
table, London is selected (local time exactly noon, excess 0) and its
excess is minimal among qualifying variants. -/
theorem c1_minimal_excess_witness :
    1 < scenarioTable.length ∧ 43200 ≤ localSecs1 (scenarioTable.getD 1 default) 39600 ∧
      ∀ j, j < scenarioTable.length → 43200 ≤ localSecs1 (scenarioTable.getD j default) 39600 →
        localSecs1 (scenarioTable.getD 1 default) 39600 - 43200 ≤
          localSecs1 (scenarioTable.getD j default) 39600 - 43200 :=
  c1_minimal_excess.1 rngZero scenarioTable 39600 (0, 0) 1 "LON" 3600 (by decide)

/-- A one-variant table (UTC, no DST) whose local time at the witness
instant has not reached noon. -/
def noQualTable : List TzInfo := [⟨0, 0, 0, 0, ["UTC"]⟩]

/-- Airport analog of `noQualTable`: one UTC bucket with one code. -/
def noQualAirTable : AirTable := ⟨[⟨0, 0, 0, 0, 0, 1⟩], [0]⟩

/-- C4: if no variant's local seconds-of-day has reached the target, each
selector reaches its `best_count == 0` branch by normal control flow and
stores the "none found" sentinel (`"Wait..."` resp. `"---"`) with active
offset 0 — a formattable placeholder, not an error or the undefined
`ub` outcome. -/
theorem c4_no_qualifier_sentinel :
    (∀ (rng : Nat → Nat → Nat) (table : List TzInfo) (t : Int) (rsIn : RngState),
      (∀ j, j < table.length → localSecs1 (table.getD j default) t < 43200) →
      update_selected_timezone_and_city rng table t rsIn = .noneFound ∧
        (update_selected_timezone_and_city rng table t rsIn).cityName = "Wait..." ∧
        (update_selected_timezone_and_city rng table t rsIn).offsetSec = 0) ∧
    (∀ (rng : Nat → Nat → Nat) (table : List TzInfo) (t : Int) (rsIn : RngState),
      (∀ j, j < table.length → localSecs1 (table.getD j default) t < 43200) →
      update_selected_timezone_and_city_twopass rng table t rsIn = .noneFound ∧
        (update_selected_timezone_and_city_twopass rng table t rsIn).cityName = "Wait..." ∧
        (update_selected_timezone_and_city_twopass rng table t rsIn).offsetSec = 0) ∧
    (∀ (rng : Nat → Nat → Nat) (tbl : AirTable) (t target : Int) (rsIn : RngState),
      (∀ j, j < tbl.tzs.length → localSecsA (tbl.tzs.getD j default) t < target) →
      airport_pick_new rng tbl t target rsIn = .noneFound ∧
        (airport_pick_new rng tbl t target rsIn).codeStr = "---" ∧
        (airport_pick_new rng tbl t target rsIn).offsetSec = 0) := by
  refine ⟨?_, ?_, ?_⟩
  · intro rng table t rsIn h
    have he := update1_noneFound_of_no_qualifier rng table t rsIn h
    exact ⟨he, by rw [he]; rfl, by rw [he]; rfl⟩
  · intro rng table t rsIn h
    have he := update2_noneFound_of_no_qualifier rng table t rsIn h
    exact ⟨he, by rw [he]; rfl, by rw [he]; rfl⟩
  · intro rng tbl t target rsIn h
    have he := airport_noneFound_of_no_qualifier rng tbl t target rsIn h
    exact ⟨he, by rw [he]; rfl, by rw [he]; rfl⟩

/-- Witness for C4: at UTC midnight no variant of the one-entry tables has
reached noon; all three selectors store the sentinel. -/
theorem c4_no_qualifier_sentinel_witness :
    (update_selected_timezone_and_city rngZero noQualTable 0 (0, 0) = .noneFound ∧
      (update_selected_timezone_and_city rngZero noQualTable 0 (0, 0)).cityName = "Wait..." ∧
      (update_selected_timezone_and_city rngZero noQualTable 0 (0, 0)).offsetSec = 0) ∧
    (update_selected_timezone_and_city_twopass rngZero noQualTable 0 (0, 0) = .noneFound ∧
      (update_selected_timezone_and_city_twopass rngZero noQualTable 0 (0, 0)).cityName
          = "Wait..." ∧
      (update_selected_timezone_and_city_twopass rngZero noQualTable 0 (0, 0)).offsetSec = 0) ∧
    (airport_pick_new rngZero noQualAirTable 0 43200 (0, 0) = .noneFound ∧
      (airport_pick_new rngZero noQualAirTable 0 43200 (0, 0)).codeStr = "---" ∧
      (airport_pick_new rngZero noQualAirTable 0 43200 (0, 0)).offsetSec = 0) :=
  ⟨c4_no_qualifier_sentinel.1 rngZero noQualTable 0 (0, 0) (by decide),
    c4_no_qualifier_sentinel.2.1 rngZero noQualTable 0 (0, 0) (by decide),
    c4_no_qualifier_sentinel.2.2 rngZero noQualAirTable 0 43200 (0, 0) (by decide)⟩

/-- C6: for a fixed PRNG stream, table, instant and target, the
evaluation result does not depend on the global PRNG state on entry —
`srand(current_utc_t)` (re)seeds it from the evaluation instant before
any use, so two runs at the same instant produce the same selected place
and the same stored offset. -/
theorem c6_determinism :
    ∀ (rng : Nat → Nat → Nat) (table : List TzInfo) (tbl : AirTable) (t target : Int)
      (rs rs' : RngState),
      update_selected_timezone_and_city rng table t rs =
          update_selected_timezone_and_city rng table t rs' ∧
        update_selected_timezone_and_city_twopass rng table t rs =
          update_selected_timezone_and_city_twopass rng table t rs' ∧
        airport_pick_new rng tbl t target rs = airport_pick_new rng tbl t target rs' :=
  fun _ _ _ _ _ _ _ => ⟨rfl, rfl, rfl⟩

/-- A one-variant table with a wrap-around DST window (`dst_start = 100 >
dst_end = 50`): UTC+10 standard, UTC+11 DST. -/
def wrapDstTable : List TzInfo := [⟨36000, 39600, 100, 50, ["SYD"]⟩]

/-- C2 (code bug in the single-pass selector): at `t = 5000` the scan
qualifies the wrap-around variant using its DST offset (DST is active,
local time 44600 ≥ 43200), but line 78 re-derives DST for the winner
without the wrap-around case and stores the standard offset 36000; the
claimed invariant `(utc_seconds_of_day + active_offset) mod 86400 ≥
43200` then fails while a selection exists. -/
theorem c2_wrap_offset_bug :
    update_selected_timezone_and_city rngZero wrapDstTable 5000 (0, 0) =
        .selected 0 "SYD" 36000 ∧
      isDst1 (wrapDstTable.getD 0 default) 5000 = true ∧
      localSecs1 (wrapDstTable.getD 0 default) 5000 = 44600 ∧
      ¬(43200 ≤ (utcSecs 5000 +
        (update_selected_timezone_and_city rngZero wrapDstTable 5000 (0, 0)).offsetSec)
          % 86400) := by decide

/-- C3 counterexample: a variant with `dst_start = 0`, `dst_end = 1` at
`now = 0`.  The spec rule (`dst_start <= dst_end` branch) makes DST
active, but `update_selected_timezone_and_city` requires BOTH transition
fields nonzero and computes with the standard offset. -/
theorem c3_dst_rule_counterexample :
    isDst1 ⟨3600, 7200, 0, 1, []⟩ 0 = false ∧
      specDstActive 0 1 0 = true ∧
      activeOffset1 ⟨3600, 7200, 0, 1, []⟩ 0 = 3600 := by decide

/-- C3 amended: `_airport_is_dst` follows the spec's DST rule exactly;
the `clock_closest_noon` selectors follow it whenever `dst_start` and
`dst_end` are both zero or both nonzero (they treat a variant with
exactly one of them zero as never-DST); and each selector's local-time
computation uses the DST offset exactly when its determination is
active, the standard offset otherwise. -/
theorem c3_dst_rule_amended :
    (∀ (tz : AirTzInfo) (now : Int),
      airportIsDst tz now = specDstActive tz.dstStartUtc tz.dstEndUtc now) ∧
    (∀ (tz : TzInfo) (now : Int),
      ((tz.dstStartUtc = 0 ∧ tz.dstEndUtc = 0) ∨ (tz.dstStartUtc ≠ 0 ∧ tz.dstEndUtc ≠ 0)) →
        isDst1 tz now = specDstActive tz.dstStartUtc tz.dstEndUtc now) ∧
    (∀ (tz : TzInfo) (now : Int),
      activeOffset1 tz now = if isDst1 tz now then tz.dstOffsetSec else tz.stdOffsetSec) ∧
    (∀ (tz : AirTzInfo) (now : Int),
      airportOffsetSec tz now =
        (if airportIsDst tz now then tz.dstQuarters else tz.stdQuarters) * 900) := by
  refine ⟨fun tz now => rfl, ?_, fun tz now => rfl, fun tz now => rfl⟩
  intro tz now h
  rcases h with ⟨h1, h2⟩ | ⟨h1, h2⟩
  · simp [isDst1, specDstActive, h1, h2]
  · rw [isDst1, specDstActive]
    rw [if_pos ⟨h1, h2⟩, if_neg (by tauto)]
    by_cases hle : tz.dstStartUtc ≤ tz.dstEndUtc
    · rw [if_pos hle]
      simp only [decide_eq_decide]
      omega
    · rw [if_neg hle]
      simp only [decide_eq_decide]
      omega

/-- Witness for the amended C3: inside a normal DST window both
determinations agree with the spec rule. -/
theorem c3_dst_rule_amended_witness :
    isDst1 ⟨3600, 7200, 100, 200, []⟩ 150 = specDstActive 100 200 150 ∧
      airportIsDst ⟨4, 8, 100, 200, 0, 1⟩ 150 = specDstActive 100 200 150 :=
  ⟨c3_dst_rule_amended.2.1 ⟨3600, 7200, 100, 200, []⟩ 150 (Or.inr ⟨by decide, by decide⟩),
    c3_dst_rule_amended.1 ⟨4, 8, 100, 200, 0, 1⟩ 150⟩

/-- C5: the shared per-second gating. (a) an evaluation is only triggered
at an aligned instant (minute ∈ {0, 15, 30}, second 0) or when
`s_last_re_evaluation_time` is still the unset sentinel -1; (b) the very
first update after initialization (both fields -1) always evaluates;
(c) every call leaves `s_last_update_time = t`, and a repeated call for
the same second never evaluates. -/
theorem c5_scheduling_gate :
    (∀ (lastUpdate lastReEval t : Int),
      (clock_update_gate lastUpdate lastReEval t).1 = true →
        isReEvalInstant t = true ∨ lastReEval = -1) ∧
    (∀ t : Int, 0 ≤ t → (clock_update_gate (-1) (-1) t).1 = true) ∧
    (∀ (lastUpdate lastReEval t : Int), (clock_update_gate lastUpdate lastReEval t).2.1 = t) ∧
    (∀ (lastReEval t : Int), (clock_update_gate t lastReEval t).1 = false) := by
  refine ⟨?_, ?_, ?_, ?_⟩
  · intro lu lre t h
    by_cases h0 : t = lu
    · rw [clock_update_gate, if_pos h0] at h
      exact Bool.noConfusion h
    · rw [clock_update_gate, if_neg h0] at h
      dsimp only at h
      by_cases ha : isReEvalInstant t = true
      · left; exact ha
      · rw [if_neg ha] at h
        right
        split at h
        · rename_i hd
          exact of_decide_eq_true hd
        · exact Bool.noConfusion h
  · intro t ht
    rw [clock_update_gate, if_neg (show ¬(t = -1) by omega)]
    dsimp only
    by_cases ha : isReEvalInstant t = true
    · rw [if_pos ha, if_pos (decide_eq_true (show t ≠ -1 by omega))]
    · rw [if_neg ha, if_pos (decide_eq_true (show (-1 : Int) = -1 from rfl))]
  · intro lu lre t
    by_cases h0 : t = lu
    · rw [clock_update_gate, if_pos h0]
      exact h0.symm
    · rw [clock_update_gate, if_neg h0]
      dsimp only
      split <;> split <;> rfl
  · intro lre t
    rw [clock_update_gate, if_pos rfl]

/-- Witness for C5: t = 900 (UTC 00:15:00) from the initial state
triggers an evaluation; a first update at the misaligned t = 37 also
triggers (unset sentinel), as part (a)'s disjunction records. -/
theorem c5_scheduling_gate_witness :
    (clock_update_gate (-1) (-1) 900).1 = true ∧
      (isReEvalInstant 37 = true ∨ (-1 : Int) = -1) ∧
      (clock_update_gate 444 555 444).1 = false :=
  ⟨c5_scheduling_gate.2.1 900 (by decide),
    c5_scheduling_gate.1 (-1) (-1) 37 (by decide),
    c5_scheduling_gate.2.2.2 555 444⟩

/-- C7: every `findDstTransitions` result in which the standard and DST
offsets differ by less than 60 seconds has been collapsed to
`dst = std` and `dst_start = dst_end = 0`. -/
theorem c7_no_dst_collapse :
    ∀ pre : Option (Int × Int × Int × Int),
      ((findDstTransitions pre).stdOffsetSec - (findDstTransitions pre).dstOffsetSec).natAbs
          < 60 →
        (findDstTransitions pre).dstOffsetSec = (findDstTransitions pre).stdOffsetSec ∧
          (findDstTransitions pre).dstStartTs = 0 ∧ (findDstTransitions pre).dstEndTs = 0 := by
  intro pre h
  match pre with
  | none => exact ⟨rfl, rfl, rfl⟩
  | some (stdOff, dstOff, startTs, endTs) =>
      by_cases hc : (stdOff - dstOff).natAbs < 60
      · simp only [findDstTransitions, normalizeNoDst, if_pos hc]
        exact ⟨trivial, trivial, trivial⟩
      · simp only [findDstTransitions, normalizeNoDst, if_neg hc] at h
        exact absurd h hc

/-- Witness for C7: a zone whose walk produced equal offsets but stray
transition stamps is normalized to all-zero stamps. -/
theorem c7_no_dst_collapse_witness :
    (findDstTransitions (some (3600, 3600, 5, 7))).dstOffsetSec =
        (findDstTransitions (some (3600, 3600, 5, 7))).stdOffsetSec ∧
      (findDstTransitions (some (3600, 3600, 5, 7))).dstStartTs = 0 ∧
      (findDstTransitions (some (3600, 3600, 5, 7))).dstEndTs = 0 :=
  c7_no_dst_collapse (some (3600, 3600, 5, 7)) (by decide)

/-- A one-variant table whose only (winning) variant has an empty place
list, and its airport analog (`name_count = 0`). -/
def emptyNamesTable : List TzInfo := [⟨0, 0, 0, 0, []⟩]

/-- Airport analog of `emptyNamesTable`. -/
def emptyNamesAirTable : AirTable := ⟨[⟨0, 0, 0, 0, 0, 0⟩], []⟩

/-- C8 counterexample: with an empty-place-list winner, the single-pass
selector (clock_closest_noon.c line 81) and the airport selector
(clock_closest_airport_noon.h line 132) evaluate `rand() % name_count`
with `name_count == 0` — undefined behavior, not an error marker. -/
theorem c8_ub_counterexample :
    update_selected_timezone_and_city rngZero emptyNamesTable 43200 (0, 0) = .ub ∧
      airport_pick_new rngZero emptyNamesAirTable 43200 43200 (0, 0) = .ub := by decide

/-- C8 amended: the two-pass selector guards `name_count > 0`; with an
empty winner it surfaces the fixed marker `"ERR:NO_NM"` without any
`rand() % 0`, and for a non-empty winner the selected name always comes
from the variant's own list (the `"ERR:NAME"` bounds-check branch is
unreachable). -/
theorem c8_twopass_error_marker :
    ∀ (rng : Nat → Nat → Nat) (table : List TzInfo) (t : Int) (rsIn : RngState)
      (c : Cand2) (name : String),
      update_selected_timezone_and_city_twopass rng table t rsIn = .selected c name →
      ((table.getD c.index default).names.length = 0 → name = "ERR:NO_NM") ∧
      (0 < (table.getD c.index default).names.length →
        ∃ ni, ni < (table.getD c.index default).names.length ∧
          name = (table.getD c.index default).names.getD ni "") :=
  fun rng table t rsIn c name h =>
    ⟨(update2_selected_inv rng table t rsIn c name h).2.2.1,
      (update2_selected_inv rng table t rsIn c name h).2.2.2⟩

/-- Witness for the amended C8: the two-pass selector on the
empty-place-list table yields `"ERR:NO_NM"`, and on the scenario table
the selected name `"LON"` comes from the winner's own list. -/
theorem c8_twopass_error_marker_witness :
    ((emptyNamesTable.getD (0 : Nat) default).names.length = 0 →
      "ERR:NO_NM" = "ERR:NO_NM") ∧
    (0 < (scenarioTable.getD (1 : Nat) default).names.length →
      ∃ ni, ni < (scenarioTable.getD (1 : Nat) default).names.length ∧
        "LON" = (scenarioTable.getD (1 : Nat) default).names.getD ni "") :=
  ⟨(c8_twopass_error_marker rngZero emptyNamesTable 43200 (0, 0) ⟨0, 43200, 0⟩ "ERR:NO_NM"
      (by decide)).1,
    (c8_twopass_error_marker rngZero scenarioTable 39600 (0, 0) ⟨1, 43200, 3600⟩ "LON"
      (by decide)).2⟩

/-- The TID call sequence driving `last_timestamp` to `2^64 - 1`: one call
whose uint64 microsecond value is `2^64 - 8`, then seven tie-broken
calls. -/
def tidOverflowCalls8 : List (Int × Nat) := (239807672958224, 171) :: List.replicate 7 (0, 0)

/-- One further tie-broken call: the uint64 increment wraps to 0. -/
def tidOverflowCalls9 : List (Int × Nat) := (239807672958224, 171) :: List.replicate 8 (0, 0)

/-- C9 counterexample: after `tidOverflowCalls8` the used timestamp is
`2^64 - 1`; the next call computes `current <= last` and the forced
`last + 1` wraps to 0 in uint64 arithmetic, so the encoded timestamp is
not strictly increasing at that point. -/
theorem c9_tid_wrap_counterexample :
    clock_tid_run 0 tidOverflowCalls8 = 18446744073709551615 ∧
      clock_tid_run 0 tidOverflowCalls9 = 0 ∧
      ¬(clock_tid_run 0 tidOverflowCalls8 < clock_tid_run 0 tidOverflowCalls9) := by decide

/-- C9 amended: the tie-break mechanism is exactly `previous + 1` (uint64)
whenever the newly computed value is not greater than the previous one;
and the used timestamp strictly increases across successive calls
whenever the previous one is below `2^64 - 1` (the sole wrap point,
reachable only through overflowing microsecond computations). -/
theorem c9_tid_monotonic :
    (∀ (last : Nat) (seconds : Int) (ms : Nat),
      tidMicros seconds ms ≤ last →
        clock_tid_next last seconds ms = (last + 1) % 18446744073709551616) ∧
    (∀ (last : Nat) (seconds : Int) (ms : Nat),
      last < 18446744073709551615 → last < clock_tid_next last seconds ms) := by
  constructor
  · intro last seconds ms h
    rw [clock_tid_next]
    rw [if_pos h]
  · intro last seconds ms h
    rw [clock_tid_next]
    by_cases hc : tidMicros seconds ms ≤ last
    · rw [if_pos hc, Nat.mod_eq_of_lt (by omega)]
      omega
    · rw [if_neg hc]
      omega

/-- Witness for the amended C9: a first call strictly advances from the
initial state, and a stale clock value is tie-broken to `previous + 1`. -/
theorem c9_tid_monotonic_witness :
    (tidMicros 0 0 ≤ 100 ∧ clock_tid_next 100 0 0 = 101 % 18446744073709551616) ∧
      (0 < 18446744073709551615 ∧ 0 < clock_tid_next 0 5 0) :=
  ⟨⟨by decide, c9_tid_monotonic.1 100 0 0 (by decide)⟩,
    ⟨by decide, c9_tid_monotonic.2 0 5 0 (by decide)⟩⟩

/-- C10: unpacking the generator's 15-bit packing of a 3-letter uppercase
IATA code with the runtime's decoder recovers the original character
codes. -/
theorem c10_iata_roundtrip :
    ∀ c0 c1 c2 : Nat, 65 ≤ c0 → c0 ≤ 90 → 65 ≤ c1 → c1 ≤ 90 → 65 ≤ c2 → c2 ≤ 90 →
      unpackIata0 (packIataCode c0 c1 c2) = c0 ∧
      unpackIata1 (packIataCode c0 c1 c2) = c1 ∧
      unpackIata2 (packIataCode c0 c1 c2) = c2 := by
  intro c0 c1 c2 h0a h0b h1a h1b h2a h2b
  have hf := iata_fields (c0 - 65) (by omega) (c1 - 65) (by omega) (c2 - 65) (by omega)
  unfold unpackIata0 unpackIata1 unpackIata2 packIataCode
  refine ⟨?_, ?_, ?_⟩
  · rw [hf.1]; omega
  · rw [hf.2.1]; omega
  · rw [hf.2.2]; omega

/-- Witness for C10: the code `JFK` (74, 70, 75) round-trips. -/
theorem c10_iata_roundtrip_witness :
    unpackIata0 (packIataCode 74 70 75) = 74 ∧
      unpackIata1 (packIataCode 74 70 75) = 70 ∧
      unpackIata2 (packIataCode 74 70 75) = 75 :=
  c10_iata_roundtrip 74 70 75 (by decide) (by decide) (by decide) (by decide) (by decide)
    (by decide)
